import Mathlib

/-!
# Verification of the native bridge `kdoomgeneric.cpp`

A shallow embedding of `src/main/native/src/kdoomgeneric.cpp`, the JNI adapter
between the doomgeneric engine and the `DoomPanel` host object.

Conventions of the embedding:

* a nullable pointer or JNI reference is an `Option`: `none` is `nullptr`;
* a machine integer is an `Int` (or a `Nat` for its bit pattern) with explicit
  reduction modulo `2 ^ 32`;
* what a JNI call answers is not decided by the adapter, so it is taken from a
  record of host answers given to each entry point;
* what an entry point does to the outside world is returned as a list of
  `Event`s in program order; the diagnostic output (`fprintf`) is not modelled.
-/

namespace KDoomGeneric

/-! ## Machine integers -/

/-- Bit pattern (two-complement) of a 32-bit integer (`jint`, `int`). -/
def toBits32 (x : Int) : Nat := (x % 2 ^ 32).toNat

/-- Signed reading of a 32-bit pattern. -/
def ofBits32 (b : Nat) : Int := if b < 2 ^ 31 then (b : Int) else (b : Int) - 2 ^ 32

/-- Range of a `jint`. -/
def IsJInt (x : Int) : Prop := -(2 ^ 31) ≤ x ∧ x < 2 ^ 31

instance (x : Int) : Decidable (IsJInt x) := by unfold IsJInt; infer_instance

/-- Range of a `jlong`. -/
def IsJLong (x : Int) : Prop := -(2 ^ 63) ≤ x ∧ x < 2 ^ 63

instance (x : Int) : Decidable (IsJLong x) := by unfold IsJLong; infer_instance

/-! ## Key input protocol -/

/-- Modelled from the spec: the host side encoder of a key event, which is not
part of the native source. "`v = (pressed << 8) | (code & 0xFF)`", computed on
32-bit signed integers as the host's `getKey` returns a `jint`. -/
def encode (pressed code : Int) : Int :=
  ofBits32 (((toBits32 pressed <<< 8) % 2 ^ 32) ||| (toBits32 code &&& 0xFF))

/-- Result of `DG_GetKey`: the returned `int` and the contents of the two out
parameters `*pressed` and `*key` after the call. -/
structure GetKeyResult where
  ret : Int
  pressed : Int
  key : Nat
  deriving DecidableEq

/-- The two decoding assignments of `DG_GetKey`, lines 194-195:
`*pressed = key_data >> 8` and `*key = key_data & 0xFF`.

`key_data >> 8` is the arithmetic shift of a signed `jint`; `key_data & 0xFF` is
taken on the bit pattern of `key_data` and stored into an `unsigned char`. -/
def decodeKey (key_data : Int) : Int × Nat :=
  (key_data >>> (8 : Nat), (toBits32 key_data &&& 0xFF) % 256)

/-- Function `DG_GetKey`, lines 190-197, on the value `key_data` that
`CallIntMethod(doom_panel, get_key_id)` returned; `pressed0` and `key0` are the
contents of the out parameters before the call. -/
def DG_GetKey (key_data : Int) (pressed0 : Int) (key0 : Nat) : GetKeyResult :=
  if key_data = 0 then { ret := 0, pressed := pressed0, key := key0 }
  else { ret := 1, pressed := (decodeKey key_data).1, key := (decodeKey key_data).2 }

/-! ## Ticks -/

/-- Conversion of an integer to `uint32_t`: the value congruent to it modulo
`2 ^ 32`. -/
def toUInt32 (x : Int) : Nat := toBits32 x

/-- Function `DG_GetTicksMs`, lines 186-188, on the `jlong` that
`CallLongMethod(doom_panel, get_ticks_id)` returned: the `return` converts it to
the `uint32_t` return type. -/
def DG_GetTicksMs (ticks : Int) : Nat := toUInt32 ticks

/-! ## JNI values -/

/-- A non-null `JNIEnv *`. -/
abbrev JNIEnvPtr := Nat

/-- A non-null JNI object reference; a nullable one is an `Option jobject`. -/
abbrev jobject := Nat

/-- A non-null `jclass`. -/
abbrev jclass := Nat

/-- A non-null `jmethodID`. -/
abbrev jmethodID := Nat

/-- A `java.lang.String` as the adapter sees it: `utf` is what
`GetStringUTFChars` answers for it, the text of the string or `nullptr`. -/
structure JString where
  utf : Option String
  deriving DecidableEq

/-- A `java.util.List` of strings: item `i` is what `get(i)` answers, a string or
`null`. -/
abbrev JList := List (Option JString)

/-- The call `env->CallObjectMethod(list, get_method, i)`: item `i` of the host list, or
`null` when the retrieval fails. -/
def CallObjectMethod_get (list : JList) (i : Nat) : Option JString :=
  (list.get? i).join

/-- The call `env->GetStringUTFChars(str, nullptr)`: the text, or `nullptr`. -/
def GetStringUTFChars (str : JString) : Option String := str.utf

/-- Both `strdup` and the `std::string` copy constructor: a C string is represented
by its text, and the copy has the text of the original. -/
def strdup (str_chars : String) : String := str_chars

/-! ## Argument marshaling -/

/-- One iteration of the loop of `convert_java_list_to_vector`, lines 27-49. -/
def convert_step (list : JList) (result : List String) (i : Nat) : List String :=
  match CallObjectMethod_get list i with
  | none => result
  | some str =>
    match GetStringUTFChars str with
    | none => result
    | some str_chars => result ++ [strdup str_chars]

/-- Function `convert_java_list_to_vector`, lines 19-52. -/
def convert_java_list_to_vector (argc : Int) (list : Option JList) : List String :=
  match list with
  | none => []
  | some l => (List.range argc.toNat).foldl (convert_step l) []

/-- An element of the `char **argv_array` that `create` allocates with
`new char *[argc]`: `new` leaves the elements indeterminate, and an element
becomes a string only when the loop assigns it. -/
inductive Slot where
  | indeterminate
  | str (s : String)
  deriving DecidableEq

/-- One iteration of the loop of `create`, lines 85-106. -/
def create_step (argv : JList) (argv_array : List Slot) (i : Nat) : List Slot :=
  match CallObjectMethod_get argv i with
  | none => argv_array
  | some str =>
    match GetStringUTFChars str with
    | none => argv_array
    | some str_chars => argv_array.set i (Slot.str (strdup str_chars))

/-- The value of `argv_array` when `create` reaches line 115: `nullptr`, or the
array of `argc` elements filled by the loop of lines 85-106. -/
def create_argv (argc : Int) (argv : Option JList) : Option (List Slot) :=
  match argv with
  | none => none
  | some l =>
    if argc > 0 then
      some ((List.range argc.toNat).foldl (create_step l) (List.replicate argc.toNat Slot.indeterminate))
    else none

/-! ## Bridge context and creation -/

/-- The file-level statics of lines 9-17. -/
structure BridgeContext where
  current_env : Option JNIEnvPtr
  doom_panel : Option jobject
  init_id : Option jmethodID
  draw_id : Option jmethodID
  sleep_id : Option jmethodID
  get_ticks_id : Option jmethodID
  get_key_id : Option jmethodID
  set_window_title_id : Option jmethodID
  deriving DecidableEq

/-- The statics at process start: all `nullptr`. -/
def BridgeContext.initial : BridgeContext :=
  { current_env := none, doom_panel := none, init_id := none, draw_id := none,
    sleep_id := none, get_ticks_id := none, get_key_id := none,
    set_window_title_id := none }

/-- What the JNI environment answers to the calls of `create`. -/
structure CreateHost where
  /-- Answer of `NewGlobalRef(obj)`: a global reference, or `nullptr` when out of memory. -/
  NewGlobalRef : jobject → Option jobject
  /-- Answer of `GetMethodID(clazz, name, sig)` on the class of the panel: `nullptr` when
  the class has no such method. -/
  GetMethodID : String → String → Option jmethodID

/-- The call `doomgeneric_Create(argc, argv_array)` of line 115. -/
structure EngineCall where
  argc : Int
  argv_array : Option (List Slot)
  deriving DecidableEq

/-- Result of a call of `create`: whether the assertion of line 58 aborted the
process, the statics when the call ends, and the engine call it made. -/
structure CreateResult where
  aborted : Bool
  ctx : BridgeContext
  engine : Option EngineCall
  deriving DecidableEq

/-- Function `Java_me_gabryon_doomed_DoomPanel_create`, lines 54-116, built with
assertions enabled. `env` and `obj` are the environment and the receiver the JVM
passes to an instance native method, which are never null. The assertion is the
first statement, so when it fails the statics are what they were. -/
def create (g : BridgeContext) (h : CreateHost) (env : JNIEnvPtr) (obj : jobject)
    (argc : Int) (argv : Option JList) : CreateResult :=
  if g.current_env = none ∧ g.doom_panel = none then
    { aborted := false
      ctx :=
        { current_env := some env
          doom_panel := h.NewGlobalRef obj
          init_id := h.GetMethodID "init" "()V"
          draw_id := h.GetMethodID "drawFrame" "(Ljava/nio/ByteBuffer;)V"
          sleep_id := h.GetMethodID "sleepMs" "(J)V"
          get_ticks_id := h.GetMethodID "getTickMs" "()J"
          get_key_id := h.GetMethodID "getKey" "()I"
          set_window_title_id := h.GetMethodID "setWindowTitle" "(Ljava/lang/String;)V" }
      engine := some { argc := argc, argv_array := create_argv argc argv } }
  else
    { aborted := true, ctx := g, engine := none }

/-- Arguments of one call of `create`. -/
structure CreateArgs where
  host : CreateHost
  env : JNIEnvPtr
  obj : jobject
  argc : Int
  argv : Option JList

/-- A succession of calls of `create` on the same statics: the results of the
calls, in order. -/
def createMany (g : BridgeContext) : List CreateArgs → List CreateResult
  | [] => []
  | c :: cs =>
    let r := create g c.host c.env c.obj c.argc c.argv
    r :: createMany r.ctx cs

/-! ## Callback dispatcher -/

/-- An argument passed to a host method. -/
inductive JValue where
  | long (v : Int)
  | object (o : Option jobject)
  deriving DecidableEq

/-- What the adapter does to the outside world: the JNI calls it issues and the
`memcpy` into the mapped buffer. Handles are passed as they are, `nullptr`
included. -/
inductive Event where
  | FindClass (name : String)
  | GetStaticMethodID (clazz : Option jclass) (name sig : String)
  | GetMethodID (clazz : Option jclass) (name sig : String)
  | CallStaticObjectMethod (clazz : Option jclass) (mid : Option jmethodID) (arg : Nat)
  | NewGlobalRef (obj : Option jobject)
  | GetDirectBufferAddress (buf : Option jobject)
  | memcpy (dst : Nat) (n : Nat)
  | CallObjectMethod (obj : Option jobject) (mid : Option jmethodID)
  | CallVoidMethod (obj : Option jobject) (mid : Option jmethodID) (args : List JValue)
  | NewStringUTF (text : String)
  | abort
  deriving DecidableEq

/-- Function `DG_Init`, lines 127-129. -/
def DG_Init (g : BridgeContext) : List Event :=
  [Event.CallVoidMethod g.doom_panel g.init_id []]

/-- Function `DG_SleepMs`, lines 182-184: `ms` is a `uint32_t`, widened to a
`jlong` by the `static_cast`. -/
def DG_SleepMs (g : BridgeContext) (ms : Nat) : List Event :=
  [Event.CallVoidMethod g.doom_panel g.sleep_id [JValue.long (ms : Int)]]

/-- Function `DG_SetWindowTitle`, lines 199-201: `jtitle` is what
`NewStringUTF(title)` answers. -/
def DG_SetWindowTitle (g : BridgeContext) (jtitle : Option jobject) (title : String) :
    List Event :=
  [Event.NewStringUTF title,
   Event.CallVoidMethod g.doom_panel g.set_window_title_id [JValue.object jtitle]]

/-! ## Frame transfer -/

/-- The constants of `doomgeneric.h` used by `DG_DrawFrame`; the header is not
part of the source tree, so they are parameters. -/
structure Dims where
  DOOMGENERIC_RESX : Nat
  DOOMGENERIC_RESY : Nat
  sizeof_pixel_t : Nat
  deriving DecidableEq

/-- The expression `DOOMGENERIC_RESX * DOOMGENERIC_RESY * sizeof(pixel_t)` of
lines 156 and 162. -/
def Dims.frameBytes (d : Dims) : Nat :=
  d.DOOMGENERIC_RESX * d.DOOMGENERIC_RESY * d.sizeof_pixel_t

/-- The function-level statics of `DG_DrawFrame`, lines 133-135 and 164. -/
structure DrawStatics where
  bb_clazz : Option jclass
  allocate_direct : Option jmethodID
  buffer : Option jobject
  rewind_id : Option jmethodID
  deriving DecidableEq

/-- The statics before the first call: all `nullptr`. -/
def DrawStatics.initial : DrawStatics :=
  { bb_clazz := none, allocate_direct := none, buffer := none, rewind_id := none }

/-- What the JNI environment answers during one call of `DG_DrawFrame`, should
the call ask. -/
structure DrawHost where
  /-- Answer of `FindClass("java/nio/ByteBuffer")`. -/
  FindClass : Option jclass
  /-- Answer of `GetStaticMethodID(bb_clazz, "allocateDirect", ...)`. -/
  GetStaticMethodID : Option jmethodID
  /-- Answer of `CallStaticObjectMethod(bb_clazz, allocate_direct, size)`: a local
  reference to the new buffer, or `nullptr`. -/
  CallStaticObjectMethod : Nat → Option jobject
  /-- Answer of `NewGlobalRef(buffer)`. -/
  NewGlobalRef : Option jobject → Option jobject
  /-- Answer of `GetDirectBufferAddress(buffer)`: the address, or `nullptr`. -/
  GetDirectBufferAddress : Option jobject → Option Nat
  /-- Answer of `GetMethodID(bb_clazz, "rewind", ...)`. -/
  GetMethodID : Option jmethodID

/-- The body of the `if` of line 161 once `direct_buffer` is not null: lines
162-176, with `bb_clazz = some c` and `buffer` already settled in `s`. -/
def DG_DrawFrame_copy (d : Dims) (g : BridgeContext) (s : DrawStatics) (h : DrawHost)
    (direct_buffer : Nat) : DrawStatics × List Event :=
  let copy := Event.memcpy direct_buffer d.frameBytes
  let draw (r : jmethodID) : List Event :=
    [Event.CallObjectMethod s.buffer (some r),
     Event.CallVoidMethod g.doom_panel g.draw_id [JValue.object s.buffer]]
  match s.rewind_id with
  | some r => (s, copy :: draw r)
  | none =>
    let lookup := Event.GetMethodID s.bb_clazz "rewind" "()Ljava/nio/Buffer;"
    match h.GetMethodID with
    | none => (s, [copy, lookup])
    | some r => ({ s with rewind_id := some r }, copy :: lookup :: draw r)

/-- Lines 153-179 of `DG_DrawFrame`, with `bb_clazz` and `allocate_direct`
already settled in `s`. -/
def DG_DrawFrame_buffer (d : Dims) (g : BridgeContext) (s : DrawStatics) (h : DrawHost) :
    DrawStatics × List Event :=
  let alloc : DrawStatics × List Event :=
    match s.buffer with
    | some _ => (s, [])
    | none =>
      let local_ref := h.CallStaticObjectMethod d.frameBytes
      ({ s with buffer := h.NewGlobalRef local_ref },
       [Event.CallStaticObjectMethod s.bb_clazz s.allocate_direct d.frameBytes,
        Event.NewGlobalRef local_ref])
  let query := Event.GetDirectBufferAddress alloc.1.buffer
  match h.GetDirectBufferAddress alloc.1.buffer with
  | none => (alloc.1, alloc.2 ++ [query])
  | some direct_buffer =>
    let r := DG_DrawFrame_copy d g alloc.1 h direct_buffer
    (r.1, alloc.2 ++ query :: r.2)

/-- Lines 145-179 of `DG_DrawFrame`, with `bb_clazz` already settled in `s`. -/
def DG_DrawFrame_method (d : Dims) (g : BridgeContext) (s : DrawStatics) (h : DrawHost) :
    DrawStatics × List Event :=
  match s.allocate_direct with
  | some _ => DG_DrawFrame_buffer d g s h
  | none =>
    let lookup :=
      Event.GetStaticMethodID s.bb_clazz "allocateDirect" "(I)Ljava/nio/ByteBuffer;"
    match h.GetStaticMethodID with
    | none => (s, [lookup])
    | some m =>
      let r := DG_DrawFrame_buffer d g { s with allocate_direct := some m } h
      (r.1, lookup :: r.2)

/-- Function `DG_DrawFrame`, lines 131-180: the statics after the call and what
the call did, in order. -/
def DG_DrawFrame (d : Dims) (g : BridgeContext) (s : DrawStatics) (h : DrawHost) :
    DrawStatics × List Event :=
  match s.bb_clazz with
  | some _ => DG_DrawFrame_method d g s h
  | none =>
    let lookup := Event.FindClass "java/nio/ByteBuffer"
    match h.FindClass with
    | none => (s, [lookup])
    | some c =>
      let r := DG_DrawFrame_method d g { s with bb_clazz := some c } h
      (r.1, lookup :: r.2)

/-- A succession of calls of `DG_DrawFrame`, one host answer record per call:
the statics at the end and what each call did. -/
def drawFrames (d : Dims) (g : BridgeContext) (s : DrawStatics) :
    List DrawHost → DrawStatics × List (List Event)
  | [] => (s, [])
  | h :: hs =>
    let r := DG_DrawFrame d g s h
    let rest := drawFrames d g r.1 hs
    (rest.1, r.2 :: rest.2)

/-- Is the event an invocation of the host `allocateDirect` operation. -/
def Event.isAllocate : Event → Bool
  | Event.CallStaticObjectMethod _ _ _ => true
  | _ => false

/-- Is the event the copy, the rewind or the host draw of a frame. -/
def Event.isFrameStep : Event → Bool
  | Event.memcpy _ _ => true
  | Event.CallObjectMethod _ _ => true
  | Event.CallVoidMethod _ _ _ => true
  | _ => false

/-! ## Definitions used by the statements -/

/-- What the loop of `create` leaves in element `i`. -/
def create_slot (argv : JList) (i : Nat) : Slot :=
  match (CallObjectMethod_get argv i).bind GetStringUTFChars with
  | none => Slot.indeterminate
  | some str_chars => Slot.str str_chars

/-- The text of a host list item, when both retrievals succeed. -/
def readable (item : Option JString) : Option String := item.bind GetStringUTFChars

/-- The copy, the rewind and the host draw of one frame, in program order, for
the mapped buffer `buf` at address `a` and the rewind handle `r`. -/
def frameSteps (d : Dims) (g : BridgeContext) (buf : Option jobject) (a : Nat)
    (r : jmethodID) : List Event :=
  [Event.memcpy a d.frameBytes,
   Event.CallObjectMethod buf (some r),
   Event.CallVoidMethod g.doom_panel g.draw_id [JValue.object buf]]

/-! ## Lemmas on machine integers -/

theorem toBits32_ofNat (n : Nat) (h : n < 2 ^ 32) : toBits32 (n : Int) = n := by
  unfold toBits32
  omega

theorem ofBits32_small (b : Nat) (h : b < 2 ^ 31) : ofBits32 b = (b : Int) := by
  unfold ofBits32
  rw [if_pos h]

theorem and_0xFF (c : Nat) : c &&& 0xFF = c % 256 := by
  have := Nat.and_pow_two_sub_one_eq_mod c 8
  simpa using this

theorem encode_eq (p c : Nat) (hp : p < 2 ^ 23) (hc : c ≤ 255) :
    encode (p : Int) (c : Int) = ((p * 256 + c : Nat) : Int) := by
  unfold encode
  rw [toBits32_ofNat p (by omega), toBits32_ofNat c (by omega), and_0xFF,
    Nat.mod_eq_of_lt (show c < 256 by omega), Nat.shiftLeft_eq,
    Nat.mod_eq_of_lt (show p * 2 ^ 8 < 2 ^ 32 by omega)]
  have h2 : p * 2 ^ 8 ||| c = p * 256 + c := by
    rw [Nat.mul_comm, ← Nat.mul_add_lt_is_or (by omega)]
    omega
  rw [h2, ofBits32_small _ (by omega)]

theorem decodeKey_eq (v : Int) : decodeKey v = (v / 256, (v % 256).toNat) := by
  unfold decodeKey
  rw [Int.shiftRight_eq_div_pow, and_0xFF]
  unfold toBits32
  refine Prod.ext ?_ ?_
  · norm_num
  · show (v % 2 ^ 32).toNat % 256 % 256 = (v % 256).toNat
    omega

theorem decodeKey_encode (p c : Nat) (hp : p < 2 ^ 23) (hc : c ≤ 255) :
    decodeKey (encode (p : Int) (c : Int)) = ((p : Int), c) := by
  rw [encode_eq p c hp hc, decodeKey_eq]
  refine Prod.ext ?_ ?_
  · show ((p * 256 + c : Nat) : Int) / 256 = (p : Int)
    omega
  · show (((p * 256 + c : Nat) : Int) % 256).toNat = c
    omega

/-! ## Key input protocol -/

/-- C1, as amended: for every pressed flag with `0 ≤ pressed < 2 ^ 23` (0 and 1
among them) and every code in `[0, 255]`, decoding the encoded value
`v = (pressed << 8) | (code & 0xFF)` with the assignments of `DG_GetKey`
(`v >> 8`, `v & 0xFF` on a 32-bit signed integer) gives back exactly
`(pressed, code)`; `DG_GetKey` returns 1 with exactly this pair in its outputs,
except for `pressed = 0` and `code = 0`, where `v = 0` is the no-event value and
the outputs are left as they were. -/
theorem key_roundtrip (pressed code : Int) (hp0 : 0 ≤ pressed) (hp : pressed < 2 ^ 23)
    (hc0 : 0 ≤ code) (hc : code ≤ 255) (pressed0 : Int) (key0 : Nat) :
    decodeKey (encode pressed code) = (pressed, code.toNat) ∧
    ((decodeKey (encode pressed code)).2 : Int) = code ∧
    DG_GetKey (encode pressed code) pressed0 key0 =
      if pressed = 0 ∧ code = 0 then { ret := 0, pressed := pressed0, key := key0 }
      else { ret := 1, pressed := pressed, key := code.toNat } := by
  obtain ⟨p, rfl⟩ := Int.eq_ofNat_of_zero_le hp0
  obtain ⟨c, rfl⟩ := Int.eq_ofNat_of_zero_le hc0
  have hp' : p < 2 ^ 23 := by omega
  have hc' : c ≤ 255 := by omega
  have hd := decodeKey_encode p c hp' hc'
  refine ⟨by simpa using hd, by rw [hd], ?_⟩
  unfold DG_GetKey
  rw [hd, encode_eq p c hp' hc']
  by_cases h0 : p = 0 ∧ c = 0
  · obtain ⟨rfl, rfl⟩ := h0
    simp
  · have h1 : ¬ (((p * 256 + c : Nat) : Int) = 0) := by omega
    have h2 : ¬ ((p : Int) = 0 ∧ (c : Int) = 0) := by omega
    rw [if_neg h1, if_neg h2]
    simp

/-- Witness of `key_roundtrip`: a press (flag 1) of key code 65. -/
theorem key_roundtrip_witness :
    decodeKey (encode 1 65) = (1, 65) ∧
    DG_GetKey (encode 1 65) 7 9 = { ret := 1, pressed := 1, key := 65 } :=
  have h := key_roundtrip 1 65 (by decide) (by decide) (by decide) (by decide) 7 9
  ⟨h.1, h.2.2⟩

/-- C1, counterexample: the flag `2 ^ 23` is a non-negative 32-bit value and 0 is
a code in `[0, 255]`, yet the encoded value is `-(2 ^ 31)` and the dispatcher
decodes the flag `-(2 ^ 23)`. -/
theorem key_roundtrip_fails_at_large_flag :
    (0 : Int) ≤ 2 ^ 23 ∧ IsJInt (2 ^ 23) ∧
    encode (2 ^ 23) 0 = -(2 ^ 31) ∧
    DG_GetKey (encode (2 ^ 23) 0) 0 0 = { ret := 1, pressed := -(2 ^ 23), key := 0 } ∧
    (DG_GetKey (encode (2 ^ 23) 0) 0 0).pressed ≠ 2 ^ 23 := by
  decide

/-- C2: `encode(0, 0) == 0`, and for every `jint` that `getKey` returns,
`DG_GetKey` returns 0 exactly when that integer is 0, leaving the `pressed` and
`key` outputs as they were, and returns 1 otherwise. -/
theorem key_sentinel (key_data : Int) (_hv : IsJInt key_data) (pressed0 : Int) (key0 : Nat) :
    encode 0 0 = 0 ∧
    ((DG_GetKey key_data pressed0 key0).ret = 0 ↔ key_data = 0) ∧
    (key_data = 0 →
      DG_GetKey key_data pressed0 key0 = { ret := 0, pressed := pressed0, key := key0 }) ∧
    (key_data ≠ 0 → (DG_GetKey key_data pressed0 key0).ret = 1) := by
  refine ⟨by decide, ?_, ?_, ?_⟩
  · unfold DG_GetKey
    by_cases h : key_data = 0 <;> simp [h]
  · intro h
    simp [DG_GetKey, h]
  · intro h
    simp [DG_GetKey, h]

/-- Witness of `key_sentinel`: the value 0 with outputs holding 7 and 9. -/
theorem key_sentinel_witness :
    IsJInt 0 ∧ DG_GetKey 0 7 9 = { ret := 0, pressed := 7, key := 9 } :=
  ⟨by decide, (key_sentinel 0 (by decide) 7 9).2.2.1 rfl⟩

/-! ## Ticks -/

/-- C9: for every `jlong` `t` that `getTickMs` returns, `DG_GetTicksMs` returns
`t mod 2 ^ 32`, a value below `2 ^ 32`, which is `t` itself whenever
`0 ≤ t < 2 ^ 32`. -/
theorem ticks_narrowing (t : Int) (_ht : IsJLong t) :
    (DG_GetTicksMs t : Int) = t % 2 ^ 32 ∧ DG_GetTicksMs t < 2 ^ 32 ∧
    (0 ≤ t → t < 2 ^ 32 → (DG_GetTicksMs t : Int) = t) := by
  unfold DG_GetTicksMs toUInt32 toBits32
  refine ⟨by omega, by omega, ?_⟩
  intro h0 h1
  omega

/-- Witness of `ticks_narrowing`: `2 ^ 32 + 5` ticks are reported as 5. -/
theorem ticks_narrowing_witness : IsJLong (2 ^ 32 + 5) ∧ DG_GetTicksMs (2 ^ 32 + 5) = 5 :=
  ⟨by decide, by
    have h := (ticks_narrowing (2 ^ 32 + 5) (by decide)).1
    have e : ((2 : Int) ^ 32 + 5) % 2 ^ 32 = 5 := by decide
    rw [e] at h
    exact_mod_cast h⟩

/-! ## Lemmas on the marshaling loops -/

theorem create_step_eq (argv : JList) (arr : List Slot) (i : Nat) :
    create_step argv arr i =
      match (CallObjectMethod_get argv i).bind GetStringUTFChars with
      | none => arr
      | some s => arr.set i (Slot.str s) := by
  unfold create_step
  cases h1 : CallObjectMethod_get argv i with
  | none => simp
  | some str =>
    cases h2 : GetStringUTFChars str with
    | none => simp [h2]
    | some c => simp [h2, strdup]

theorem create_loop_upto (argv : JList) (n : Nat) :
    ∀ k, k ≤ n →
      (List.range k).foldl (create_step argv) (List.replicate n Slot.indeterminate) =
        (List.range n).map (fun i => if i < k then create_slot argv i else Slot.indeterminate) := by
  intro k
  induction k with
  | zero =>
    intro _
    apply List.ext_getElem <;> simp
  | succ k ih =>
    intro hk
    rw [List.range_succ, List.foldl_append, ih (by omega)]
    simp only [List.foldl_cons, List.foldl_nil]
    rw [create_step_eq]
    have hlt : ∀ i, i ≠ k → (i < k + 1) = (i < k) := by
      intro i hik
      apply propext; omega
    cases hs : (CallObjectMethod_get argv k).bind GetStringUTFChars with
    | none =>
      apply List.map_congr_left
      intro i _
      by_cases hik : i = k
      · subst hik
        simp [create_slot, hs]
      · simp only [hlt i hik]
    | some s =>
      apply List.ext_getElem
      · simp
      · intro i h1 h2
        simp only [List.getElem_set, List.getElem_map, List.getElem_range]
        by_cases hik : k = i
        · subst hik
          simp [create_slot, hs]
        · simp [hik, hlt i (Ne.symm hik)]

theorem create_loop_eq (argv : JList) (n : Nat) :
    (List.range n).foldl (create_step argv) (List.replicate n Slot.indeterminate) =
      (List.range n).map (create_slot argv) := by
  rw [create_loop_upto argv n n (Nat.le_refl n)]
  apply List.map_congr_left
  intro i hi
  simp [List.mem_range.mp hi]

theorem convert_step_eq (l : JList) (result : List String) (i : Nat) :
    convert_step l result i = result ++ (readable (l.get? i).join).toList := by
  unfold convert_step readable CallObjectMethod_get
  cases h1 : (l.get? i).join with
  | none => simp
  | some str =>
    cases h2 : GetStringUTFChars str with
    | none => simp [h2]
    | some c => simp [h2, strdup]

theorem convert_loop_eq (l : JList) (n : Nat) :
    (List.range n).foldl (convert_step l) [] = (l.take n).filterMap readable := by
  induction n with
  | zero => simp
  | succ n ih =>
    rw [List.range_succ, List.foldl_append, ih]
    simp only [List.foldl_cons, List.foldl_nil]
    rw [convert_step_eq]
    by_cases hn : n < l.length
    · rw [List.take_succ, List.filterMap_append]
      congr 1
      rw [List.get?_eq_getElem? ]
      simp [List.getElem?_eq_getElem hn]
      cases h : readable l[n] <;> simp [h]
    · have h1 : l.get? n = none := by
        rw [List.get?_eq_none]; omega
      rw [h1, List.take_of_length_le (by omega), List.take_of_length_le (by omega)]
      simp [readable]

/-! ## Argument marshaling -/

/-- C3: for every `n > 0` and every host list of `n` strings whose retrievals all
succeed (item `i` reads as `items[i]`), the argument vector that `create` builds
and passes to the engine, together with the count `n`, has exactly `n` entries,
and entry `i` is the text of input item `i`. The unused helper
`convert_java_list_to_vector` yields the same texts. -/
theorem create_marshals_all (h : CreateHost) (env : JNIEnvPtr) (obj : jobject)
    (argv : JList) (items : List String) (hn : 0 < items.length)
    (hread : argv.map readable = items.map some) :
    (create BridgeContext.initial h env obj (items.length : Int) (some argv)).engine =
      some { argc := (items.length : Int), argv_array := some (items.map Slot.str) } ∧
    (items.map Slot.str).length = items.length ∧
    (∀ i (hi : i < items.length), (items.map Slot.str)[i]? = some (Slot.str items[i])) ∧
    convert_java_list_to_vector (items.length : Int) (some argv) = items := by
  have hlen : argv.length = items.length := by
    have := congrArg List.length hread
    simpa using this
  have hitem : ∀ i, i < items.length →
      (CallObjectMethod_get argv i).bind GetStringUTFChars = items[i]? := by
    intro i hi
    have h1 := congrArg (fun l => l[i]?) hread
    simp only [List.getElem?_map] at h1
    unfold CallObjectMethod_get
    rw [List.get?_eq_getElem?]
    rw [List.getElem?_eq_getElem hi] at h1 ⊢
    rw [List.getElem?_eq_getElem (by omega)] at h1 ⊢
    simpa [readable] using h1
  refine ⟨?_, by simp, ?_, ?_⟩
  · have hpos : ((items.length : Int) > 0) := by omega
    simp only [create, BridgeContext.initial, and_self, if_true, create_argv, hpos,
      Int.toNat_ofNat, create_loop_eq]
    congr 3
    apply List.ext_getElem
    · simp
    · intro i h1 h2
      have hi : i < items.length := by simpa using h2
      simp [create_slot, hitem i hi, List.getElem?_eq_getElem hi]
  · intro i hi
    simp [List.getElem?_eq_getElem hi]
  · simp only [convert_java_list_to_vector, Int.toNat_ofNat, convert_loop_eq]
    rw [← hlen, List.take_length]
    have h2 : argv.filterMap readable = (argv.map readable).filterMap id := by
      rw [List.filterMap_map]; rfl
    rw [h2, hread, List.filterMap_map]
    simp

/-- Witness of `create_marshals_all`: `create(2, panel, ["-iwad", "doom.wad"])`
hands the engine the count 2 and the vector `["-iwad", "doom.wad"]`. -/
theorem create_marshals_all_witness :
    (create BridgeContext.initial
        { NewGlobalRef := fun o => some o, GetMethodID := fun _ _ => some 1 } 1 2 2
        (some [some { utf := some "-iwad" }, some { utf := some "doom.wad" }])).engine =
      some { argc := 2, argv_array := some [Slot.str "-iwad", Slot.str "doom.wad"] } :=
  (create_marshals_all { NewGlobalRef := fun o => some o, GetMethodID := fun _ _ => some 1 }
    1 2 [some { utf := some "-iwad" }, some { utf := some "doom.wad" }] ["-iwad", "doom.wad"]
    (by decide) rfl).1

/-- Whatever the host list holds, `create` hands the engine the count it was
given and an array of that many elements: a failed retrieval shortens
neither. -/
theorem create_never_shortens (h : CreateHost) (env : JNIEnvPtr) (obj : jobject)
    (argc : Int) (hpos : argc > 0) (argv : JList) :
    ∃ arr, (create BridgeContext.initial h env obj argc (some argv)).engine =
        some { argc := argc, argv_array := some arr } ∧
      (arr.length : Int) = argc := by
  refine ⟨(List.range argc.toNat).map (create_slot argv), ?_, ?_⟩
  · simp only [create, BridgeContext.initial, and_self, if_true, create_argv, hpos,
      create_loop_eq]
  · simp only [List.length_map, List.length_range]
    omega

/-- C4, the code at the failing input: with item 0 unreadable in a list of two,
`create` hands the engine the count 2 and a two-element array whose element 0
was never assigned, while `convert_java_list_to_vector` yields the one-element
vector of the readable item. -/
theorem create_keeps_count_on_unreadable_item :
    (create BridgeContext.initial
        { NewGlobalRef := fun o => some o, GetMethodID := fun _ _ => some 1 } 1 2 2
        (some [none, some { utf := some "doom.wad" }])).engine =
      some { argc := 2, argv_array := some [Slot.indeterminate, Slot.str "doom.wad"] } ∧
    convert_java_list_to_vector 2 (some [none, some { utf := some "doom.wad" }]) =
      ["doom.wad"] := by
  decide

/-! ## Single creation -/

theorem create_aborts_after_creation (g : BridgeContext) (env0 : JNIEnvPtr)
    (hg : g.current_env = some env0) (c : CreateArgs) :
    create g c.host c.env c.obj c.argc c.argv = { aborted := true, ctx := g, engine := none } := by
  unfold create
  rw [if_neg]
  rw [hg]
  simp

theorem createMany_after_creation (g : BridgeContext) (env0 : JNIEnvPtr)
    (hg : g.current_env = some env0) (calls : List CreateArgs) :
    createMany g calls =
      List.replicate calls.length { aborted := true, ctx := g, engine := none } := by
  induction calls with
  | nil => rfl
  | cons c cs ih =>
    simp only [createMany, create_aborts_after_creation g env0 hg c, ih, List.length_cons,
      List.replicate_succ]

/-- C5: starting from the initial statics, a first call of `create` passes the
assertion of line 58 and stores the environment handle; every further call of
`create`, whatever its arguments, fails the assertion, makes no engine call and
leaves the Bridge Context as the first call left it. -/
theorem create_single (h : CreateHost) (env : JNIEnvPtr) (obj : jobject) (argc : Int)
    (argv : Option JList) (calls : List CreateArgs) :
    (create BridgeContext.initial h env obj argc argv).aborted = false ∧
    (create BridgeContext.initial h env obj argc argv).ctx.current_env = some env ∧
    (createMany (create BridgeContext.initial h env obj argc argv).ctx calls).length =
      calls.length ∧
    ∀ r ∈ createMany (create BridgeContext.initial h env obj argc argv).ctx calls,
      r.aborted = true ∧ r.engine = none ∧
      r.ctx = (create BridgeContext.initial h env obj argc argv).ctx := by
  have h1 : (create BridgeContext.initial h env obj argc argv).ctx.current_env = some env := by
    simp [create, BridgeContext.initial]
  refine ⟨by simp [create, BridgeContext.initial], h1, ?_, ?_⟩
  · rw [createMany_after_creation _ env h1]
    simp
  · intro r hr
    rw [createMany_after_creation _ env h1] at hr
    have := List.eq_of_mem_replicate hr
    subst this
    exact ⟨rfl, rfl, rfl⟩

/-! ## Callback dispatcher -/

/-- C10, as amended: `Init`, `SleepMs` and `SetWindowTitle` do not test the
cached handle. After `create`, each of them issues exactly one `CallVoidMethod`
on the stored panel reference with the handle that `create` cached, which is the
answer of `GetMethodID` for that host operation, null when the lookup failed, and
none of them aborts on its own. -/
theorem dispatch_forwards_cached_handle (h : CreateHost) (env : JNIEnvPtr) (obj : jobject)
    (argc : Int) (argv : Option JList) (ms : Nat) (jtitle : Option jobject) (title : String) :
    DG_Init (create BridgeContext.initial h env obj argc argv).ctx =
      [Event.CallVoidMethod (h.NewGlobalRef obj) (h.GetMethodID "init" "()V") []] ∧
    DG_SleepMs (create BridgeContext.initial h env obj argc argv).ctx ms =
      [Event.CallVoidMethod (h.NewGlobalRef obj) (h.GetMethodID "sleepMs" "(J)V")
        [JValue.long (ms : Int)]] ∧
    DG_SetWindowTitle (create BridgeContext.initial h env obj argc argv).ctx jtitle title =
      [Event.NewStringUTF title,
       Event.CallVoidMethod (h.NewGlobalRef obj)
        (h.GetMethodID "setWindowTitle" "(Ljava/lang/String;)V") [JValue.object jtitle]] ∧
    Event.abort ∉ DG_Init (create BridgeContext.initial h env obj argc argv).ctx ∧
    Event.abort ∉ DG_SleepMs (create BridgeContext.initial h env obj argc argv).ctx ms ∧
    Event.abort ∉
      DG_SetWindowTitle (create BridgeContext.initial h env obj argc argv).ctx jtitle title := by
  simp [create, BridgeContext.initial, DG_Init, DG_SleepMs, DG_SetWindowTitle]

/-- C10, counterexample: after `create` on a panel whose class has none of the
host operations, every cached handle is null, and `Init`, `SleepMs` and
`SetWindowTitle` each pass the null handle to `CallVoidMethod` instead of
aborting. -/
theorem dispatch_does_not_abort_on_missing_handle :
    (create BridgeContext.initial
      { NewGlobalRef := fun o => some o, GetMethodID := fun _ _ => none } 1 2 0 none).ctx.init_id
      = none ∧
    DG_Init (create BridgeContext.initial
      { NewGlobalRef := fun o => some o, GetMethodID := fun _ _ => none } 1 2 0 none).ctx =
      [Event.CallVoidMethod (some 2) none []] ∧
    DG_SleepMs (create BridgeContext.initial
      { NewGlobalRef := fun o => some o, GetMethodID := fun _ _ => none } 1 2 0 none).ctx 10 =
      [Event.CallVoidMethod (some 2) none [JValue.long 10]] ∧
    DG_SetWindowTitle (create BridgeContext.initial
      { NewGlobalRef := fun o => some o, GetMethodID := fun _ _ => none } 1 2 0 none).ctx
      (some 3) "DOOM" =
      [Event.NewStringUTF "DOOM", Event.CallVoidMethod (some 2) none [JValue.object (some 3)]] := by
  decide

/-! ## Lemmas on `DG_DrawFrame` -/

theorem drawFrame_keeps_buffer (d : Dims) (g : BridgeContext) (s : DrawStatics) (h : DrawHost)
    (b : jobject) (hb : s.buffer = some b) : (DG_DrawFrame d g s h).1.buffer = some b := by
  obtain ⟨bc, ad, bf, rw⟩ := s
  obtain ⟨fc, gsm, csom, ngr, gdba, gmid⟩ := h
  simp only at hb
  subst hb
  cases hq : gdba (some b) <;>
    cases bc <;> cases ad <;> cases rw <;> cases fc <;> cases gsm <;> cases gmid <;>
    simp [DG_DrawFrame, DG_DrawFrame_method, DG_DrawFrame_buffer, DG_DrawFrame_copy, hq]

/-- The statics hold a class, an allocation method and a buffer. -/
theorem drawFrame_settled (d : Dims) (g : BridgeContext) (s : DrawStatics) (h : DrawHost)
    (c : jclass) (m : jmethodID) (b : jobject)
    (hc : s.bb_clazz = some c) (hm : s.allocate_direct = some m) (hb : s.buffer = some b) :
    (DG_DrawFrame d g s h).1.bb_clazz = some c ∧
    (DG_DrawFrame d g s h).1.allocate_direct = some m ∧
    (DG_DrawFrame d g s h).1.buffer = some b ∧
    (DG_DrawFrame d g s h).2.filter Event.isAllocate = [] ∧
    ∀ o mid args, Event.CallVoidMethod o mid args ∈ (DG_DrawFrame d g s h).2 →
      o = g.doom_panel ∧ mid = g.draw_id ∧ args = [JValue.object (some b)] := by
  obtain ⟨bc, ad, bf, rw⟩ := s
  obtain ⟨fc, gsm, csom, ngr, gdba, gmid⟩ := h
  simp only at hc hm hb
  subst hc hm hb
  cases hq : gdba (some b) <;> cases rw <;> cases gmid <;>
    simp [DG_DrawFrame, DG_DrawFrame_method, DG_DrawFrame_buffer, DG_DrawFrame_copy, hq,
      Event.isAllocate]

theorem drawFrame_first (d : Dims) (g : BridgeContext) (h : DrawHost)
    (c : jclass) (m : jmethodID) (b : jobject)
    (hc : h.FindClass = some c) (hm : h.GetStaticMethodID = some m)
    (hb : h.NewGlobalRef (h.CallStaticObjectMethod d.frameBytes) = some b) :
    (DG_DrawFrame d g DrawStatics.initial h).1.bb_clazz = some c ∧
    (DG_DrawFrame d g DrawStatics.initial h).1.allocate_direct = some m ∧
    (DG_DrawFrame d g DrawStatics.initial h).1.buffer = some b ∧
    (DG_DrawFrame d g DrawStatics.initial h).2.filter Event.isAllocate =
      [Event.CallStaticObjectMethod (some c) (some m) d.frameBytes] ∧
    ∀ o mid args, Event.CallVoidMethod o mid args ∈ (DG_DrawFrame d g DrawStatics.initial h).2 →
      o = g.doom_panel ∧ mid = g.draw_id ∧ args = [JValue.object (some b)] := by
  obtain ⟨fc, gsm, csom, ngr, gdba, gmid⟩ := h
  simp only at hc hm hb
  subst hc hm
  cases hq : gdba (some b) <;> cases gmid <;>
    simp [DG_DrawFrame, DG_DrawFrame_method, DG_DrawFrame_buffer, DG_DrawFrame_copy, hq, hb,
      Event.isAllocate, DrawStatics.initial]

theorem drawFrames_settled (d : Dims) (g : BridgeContext) (c : jclass) (m : jmethodID)
    (b : jobject) (hs : List DrawHost) :
    ∀ s : DrawStatics, s.bb_clazz = some c → s.allocate_direct = some m → s.buffer = some b →
      (drawFrames d g s hs).1.buffer = some b ∧
      (drawFrames d g s hs).2.length = hs.length ∧
      ∀ t ∈ (drawFrames d g s hs).2, t.filter Event.isAllocate = [] ∧
        ∀ o mid args, Event.CallVoidMethod o mid args ∈ t →
          o = g.doom_panel ∧ mid = g.draw_id ∧ args = [JValue.object (some b)] := by
  induction hs with
  | nil =>
    intro s _ _ hb
    simp [drawFrames, hb]
  | cons h hs ih =>
    intro s hc hm hb
    obtain ⟨h1, h2, h3, h4, h5⟩ := drawFrame_settled d g s h c m b hc hm hb
    obtain ⟨i1, i2, i3⟩ := ih (DG_DrawFrame d g s h).1 h1 h2 h3
    refine ⟨i1, by simp [drawFrames, i2], ?_⟩
    intro t ht
    simp only [drawFrames, List.mem_cons] at ht
    rcases ht with rfl | ht
    · exact ⟨h4, h5⟩
    · exact i3 t ht

theorem drawFrame_steps_shape (d : Dims) (g : BridgeContext) (s : DrawStatics) (h : DrawHost) :
    (DG_DrawFrame d g s h).2.filter Event.isFrameStep = [] ∨
    (∃ a, (DG_DrawFrame d g s h).2.filter Event.isFrameStep = [Event.memcpy a d.frameBytes]) ∨
    ∃ a r, (DG_DrawFrame d g s h).1.rewind_id = some r ∧
      (DG_DrawFrame d g s h).2.filter Event.isFrameStep =
        frameSteps d g (DG_DrawFrame d g s h).1.buffer a r := by
  obtain ⟨bc, ad, bf, rw⟩ := s
  obtain ⟨fc, gsm, csom, ngr, gdba, gmid⟩ := h
  cases bf with
  | some b =>
    cases hq : gdba (some b) <;>
      cases bc <;> cases ad <;> cases rw <;> cases fc <;> cases gsm <;> cases gmid <;>
      simp [DG_DrawFrame, DG_DrawFrame_method, DG_DrawFrame_buffer, DG_DrawFrame_copy, hq,
        Event.isFrameStep, frameSteps]
  | none =>
    cases hq : gdba (ngr (csom d.frameBytes)) <;>
      cases bc <;> cases ad <;> cases rw <;> cases fc <;> cases gsm <;> cases gmid <;>
      simp [DG_DrawFrame, DG_DrawFrame_method, DG_DrawFrame_buffer, DG_DrawFrame_copy, hq,
        Event.isFrameStep, frameSteps]

theorem drawFrame_steps_full (d : Dims) (g : BridgeContext) (s : DrawStatics) (h : DrawHost)
    (c : jclass) (m r : jmethodID) (a : Nat)
    (hc : h.FindClass = some c) (hm : h.GetStaticMethodID = some m)
    (hr : h.GetMethodID = some r)
    (ha : h.GetDirectBufferAddress (DG_DrawFrame d g s h).1.buffer = some a) :
    ∃ r1, (DG_DrawFrame d g s h).1.rewind_id = some r1 ∧
      (DG_DrawFrame d g s h).2.filter Event.isFrameStep =
        frameSteps d g (DG_DrawFrame d g s h).1.buffer a r1 := by
  obtain ⟨bc, ad, bf, rw⟩ := s
  obtain ⟨fc, gsm, csom, ngr, gdba, gmid⟩ := h
  simp only at hc hm hr
  subst hc hm hr
  cases bf with
  | some b =>
    have hb : gdba (some b) = some a := by
      rw [← ha, drawFrame_keeps_buffer _ _ _ _ b rfl]
    cases bc <;> cases ad <;> cases rw <;>
      simp [DG_DrawFrame, DG_DrawFrame_method, DG_DrawFrame_buffer, DG_DrawFrame_copy, hb,
        Event.isFrameStep, frameSteps]
  | none =>
    cases hq : gdba (ngr (csom d.frameBytes)) with
    | none =>
      exfalso
      revert ha
      cases bc <;> cases ad <;> cases rw <;>
        simp [DG_DrawFrame, DG_DrawFrame_method, DG_DrawFrame_buffer, DG_DrawFrame_copy, hq]
    | some a1 =>
      have : a1 = a := by
        revert ha
        cases bc <;> cases ad <;> cases rw <;>
          simp [DG_DrawFrame, DG_DrawFrame_method, DG_DrawFrame_buffer, DG_DrawFrame_copy, hq]
      subst this
      cases bc <;> cases ad <;> cases rw <;>
        simp [DG_DrawFrame, DG_DrawFrame_method, DG_DrawFrame_buffer, DG_DrawFrame_copy, hq,
          Event.isFrameStep, frameSteps]

theorem drawFrame_steps_none (d : Dims) (g : BridgeContext) (s : DrawStatics) (h : DrawHost)
    (ha : h.GetDirectBufferAddress (DG_DrawFrame d g s h).1.buffer = none) :
    (DG_DrawFrame d g s h).2.filter Event.isFrameStep = [] ∧
    Event.abort ∉ (DG_DrawFrame d g s h).2 := by
  obtain ⟨bc, ad, bf, rw⟩ := s
  obtain ⟨fc, gsm, csom, ngr, gdba, gmid⟩ := h
  cases bf with
  | some b =>
    have hb : gdba (some b) = none := by
      rw [← ha, drawFrame_keeps_buffer _ _ _ _ b rfl]
    cases bc <;> cases ad <;> cases rw <;> cases fc <;> cases gsm <;> cases gmid <;>
      simp [DG_DrawFrame, DG_DrawFrame_method, DG_DrawFrame_buffer, DG_DrawFrame_copy, hb,
        Event.isFrameStep]
  | none =>
    cases hq : gdba (ngr (csom d.frameBytes)) with
    | none =>
      cases bc <;> cases ad <;> cases rw <;> cases fc <;> cases gsm <;> cases gmid <;>
        simp [DG_DrawFrame, DG_DrawFrame_method, DG_DrawFrame_buffer, DG_DrawFrame_copy, hq,
          Event.isFrameStep]
    | some a1 =>
      revert ha
      cases bc <;> cases ad <;> cases rw <;> cases fc <;> cases gsm <;> cases gmid <;>
        simp [DG_DrawFrame, DG_DrawFrame_method, DG_DrawFrame_buffer, DG_DrawFrame_copy, hq,
          Event.isFrameStep]

/-! ## Frame transfer -/

theorem filter_flatten_nil (p : Event → Bool) (ts : List (List Event))
    (h : ∀ t ∈ ts, t.filter p = []) : ts.flatten.filter p = [] := by
  induction ts with
  | nil => rfl
  | cons t ts ih =>
    rw [List.flatten_cons, List.filter_append, h t (List.mem_cons_self t ts),
      ih (fun u hu => h u (List.mem_cons_of_mem t hu))]
    rfl

/-- C6, as amended: over every non-empty sequence of `DG_DrawFrame` calls whose
first call finds the `ByteBuffer` class and its `allocateDirect` method and gets
a non-null buffer reference `b`, the host allocation is invoked exactly once, in
the first call, with size `width * height * pixelSize`; the stored buffer
reference is `b` at the end, and every host draw of every call is passed `b`. -/
theorem buffer_allocated_once (d : Dims) (g : BridgeContext) (h : DrawHost)
    (hs : List DrawHost) (c : jclass) (m : jmethodID) (b : jobject)
    (hc : h.FindClass = some c) (hm : h.GetStaticMethodID = some m)
    (hb : h.NewGlobalRef (h.CallStaticObjectMethod d.frameBytes) = some b) :
    (drawFrames d g DrawStatics.initial (h :: hs)).2.flatten.filter Event.isAllocate =
      [Event.CallStaticObjectMethod (some c) (some m) d.frameBytes] ∧
    (∃ first rest, (drawFrames d g DrawStatics.initial (h :: hs)).2 = first :: rest ∧
      rest.length = hs.length ∧
      first.filter Event.isAllocate =
        [Event.CallStaticObjectMethod (some c) (some m) d.frameBytes] ∧
      ∀ t ∈ rest, t.filter Event.isAllocate = []) ∧
    (drawFrames d g DrawStatics.initial (h :: hs)).1.buffer = some b ∧
    ∀ t ∈ (drawFrames d g DrawStatics.initial (h :: hs)).2,
      ∀ o mid args, Event.CallVoidMethod o mid args ∈ t →
        o = g.doom_panel ∧ mid = g.draw_id ∧ args = [JValue.object (some b)] := by
  obtain ⟨h1, h2, h3, h4, h5⟩ := drawFrame_first d g h c m b hc hm hb
  obtain ⟨i1, i2, i3⟩ :=
    drawFrames_settled d g c m b hs (DG_DrawFrame d g DrawStatics.initial h).1 h1 h2 h3
  refine ⟨?_, ⟨_, _, rfl, i2, h4, fun t ht => (i3 t ht).1⟩, i1, ?_⟩
  · show ((DG_DrawFrame d g DrawStatics.initial h).2 ::
        (drawFrames d g (DG_DrawFrame d g DrawStatics.initial h).1 hs).2).flatten.filter
          Event.isAllocate = _
    rw [List.flatten_cons, List.filter_append, h4,
      filter_flatten_nil _ _ (fun t ht => (i3 t ht).1)]
    rfl
  · intro t ht
    simp only [drawFrames, List.mem_cons] at ht
    rcases ht with rfl | ht
    · exact h5
    · exact (i3 t ht).2

/-- Witness of `buffer_allocated_once`: three calls at 640 x 400 x 4 bytes; the
host allocates buffer 5, and gives its address in the first and third call
only. -/
theorem buffer_allocated_once_witness :
    (drawFrames ⟨640, 400, 4⟩
        ⟨some 1, some 2, some 20, some 21, some 22, some 23, some 24, some 25⟩
        DrawStatics.initial
        [⟨some 7, some 8, fun _ => some 4, fun _ => some 5, fun _ => some 4096, some 9⟩,
         ⟨none, none, fun _ => none, fun _ => none, fun _ => none, none⟩,
         ⟨none, none, fun _ => some 6, fun _ => some 6, fun _ => some 4096,
           none⟩]).2.flatten.filter Event.isAllocate =
      [Event.CallStaticObjectMethod (some 7) (some 8) 1024000] :=
  (buffer_allocated_once ⟨640, 400, 4⟩
    ⟨some 1, some 2, some 20, some 21, some 22, some 23, some 24, some 25⟩
    ⟨some 7, some 8, fun _ => some 4, fun _ => some 5, fun _ => some 4096, some 9⟩
    [⟨none, none, fun _ => none, fun _ => none, fun _ => none, none⟩,
     ⟨none, none, fun _ => some 6, fun _ => some 6, fun _ => some 4096, none⟩]
    7 8 5 rfl rfl rfl).1

/-- C6, counterexample: over three calls in which the class lookup fails the
allocation is never invoked, and over two calls in which the allocation answers
null it is invoked twice. -/
theorem buffer_allocation_count_depends_on_host :
    (drawFrames ⟨640, 400, 4⟩
        ⟨some 1, some 2, some 20, some 21, some 22, some 23, some 24, some 25⟩
        DrawStatics.initial
        [⟨none, some 8, fun _ => some 4, fun _ => some 5, fun _ => some 4096, some 9⟩,
         ⟨none, some 8, fun _ => some 4, fun _ => some 5, fun _ => some 4096, some 9⟩,
         ⟨none, some 8, fun _ => some 4, fun _ => some 5, fun _ => some 4096,
           some 9⟩]).2.flatten.filter Event.isAllocate = [] ∧
    (drawFrames ⟨640, 400, 4⟩
        ⟨some 1, some 2, some 20, some 21, some 22, some 23, some 24, some 25⟩
        DrawStatics.initial
        [⟨some 7, some 8, fun _ => none, fun o => o, fun _ => none, some 9⟩,
         ⟨some 7, some 8, fun _ => none, fun o => o, fun _ => none,
           some 9⟩]).2.flatten.filter Event.isAllocate =
      [Event.CallStaticObjectMethod (some 7) (some 8) 1024000,
       Event.CallStaticObjectMethod (some 7) (some 8) 1024000] := by
  decide

/-- C7, as amended: in every `DG_DrawFrame` call in which the host answers the
class and method lookups and the address of the mapped buffer is obtained, the
call copies exactly `width * height * pixelSize` bytes to that address, then
rewinds the buffer, and only then invokes the host draw with that buffer
reference: copy, rewind, draw, each once. In every call whatsoever these steps
are none, the copy alone, or all three in this order. -/
theorem draw_order (d : Dims) (g : BridgeContext) (s : DrawStatics) (h : DrawHost)
    (c : jclass) (m r : jmethodID) (a : Nat)
    (hc : h.FindClass = some c) (hm : h.GetStaticMethodID = some m)
    (hr : h.GetMethodID = some r)
    (ha : h.GetDirectBufferAddress (DG_DrawFrame d g s h).1.buffer = some a) :
    (∃ r1, (DG_DrawFrame d g s h).1.rewind_id = some r1 ∧
      (DG_DrawFrame d g s h).2.filter Event.isFrameStep =
        [Event.memcpy a (d.DOOMGENERIC_RESX * d.DOOMGENERIC_RESY * d.sizeof_pixel_t),
         Event.CallObjectMethod (DG_DrawFrame d g s h).1.buffer (some r1),
         Event.CallVoidMethod g.doom_panel g.draw_id
           [JValue.object (DG_DrawFrame d g s h).1.buffer]]) ∧
    ∀ s0 h0,
      (DG_DrawFrame d g s0 h0).2.filter Event.isFrameStep = [] ∨
      (∃ a0, (DG_DrawFrame d g s0 h0).2.filter Event.isFrameStep =
        [Event.memcpy a0 d.frameBytes]) ∨
      ∃ a0 r0, (DG_DrawFrame d g s0 h0).1.rewind_id = some r0 ∧
        (DG_DrawFrame d g s0 h0).2.filter Event.isFrameStep =
          frameSteps d g (DG_DrawFrame d g s0 h0).1.buffer a0 r0 :=
  ⟨drawFrame_steps_full d g s h c m r a hc hm hr ha, fun s0 h0 => drawFrame_steps_shape d g s0 h0⟩

/-- Witness of `draw_order`: a first call at 640 x 400 x 4 bytes, in full. -/
theorem draw_order_witness :
    (DG_DrawFrame ⟨640, 400, 4⟩
        ⟨some 1, some 2, some 20, some 21, some 22, some 23, some 24, some 25⟩
        DrawStatics.initial
        ⟨some 7, some 8, fun _ => some 4, fun _ => some 5, fun _ => some 4096,
          some 9⟩).2.filter Event.isFrameStep =
      [Event.memcpy 4096 1024000, Event.CallObjectMethod (some 5) (some 9),
       Event.CallVoidMethod (some 2) (some 21) [JValue.object (some 5)]] := by
  obtain ⟨r1, h1, h2⟩ := (draw_order ⟨640, 400, 4⟩
    ⟨some 1, some 2, some 20, some 21, some 22, some 23, some 24, some 25⟩
    DrawStatics.initial
    ⟨some 7, some 8, fun _ => some 4, fun _ => some 5, fun _ => some 4096, some 9⟩
    7 8 9 4096 rfl rfl rfl rfl).1
  have e : r1 = 9 := Option.some.inj (h1.symm.trans rfl)
  rw [h2, e]
  rfl

/-- C7, counterexample: a call in which the address of the buffer is not
obtained copies nothing, and a call in which the `rewind` method is not found
copies the frame but neither rewinds nor draws. -/
theorem draw_steps_missing_on_failure :
    (DG_DrawFrame ⟨640, 400, 4⟩
        ⟨some 1, some 2, some 20, some 21, some 22, some 23, some 24, some 25⟩
        DrawStatics.initial
        ⟨some 7, some 8, fun _ => some 4, fun _ => some 5, fun _ => none,
          some 9⟩).2.filter Event.isFrameStep = [] ∧
    (DG_DrawFrame ⟨640, 400, 4⟩
        ⟨some 1, some 2, some 20, some 21, some 22, some 23, some 24, some 25⟩
        DrawStatics.initial
        ⟨some 7, some 8, fun _ => some 4, fun _ => some 5, fun _ => some 4096,
          none⟩).2.filter Event.isFrameStep = [Event.memcpy 4096 1024000] := by
  decide

/-- C8: in every `DG_DrawFrame` call in which the address of the mapped buffer
is not obtained, the call copies nothing, does not rewind, does not invoke the
host draw and does not abort; a buffer reference stored before the call is still
stored after it, and a later call that obtains the address of the stored buffer
copies, rewinds and draws with it. -/
theorem frame_dropped_without_address (d : Dims) (g : BridgeContext) (s : DrawStatics)
    (h : DrawHost)
    (ha : h.GetDirectBufferAddress (DG_DrawFrame d g s h).1.buffer = none) :
    (DG_DrawFrame d g s h).2.filter Event.isFrameStep = [] ∧
    Event.abort ∉ (DG_DrawFrame d g s h).2 ∧
    (∀ b, s.buffer = some b → (DG_DrawFrame d g s h).1.buffer = some b) ∧
    ∀ b, (DG_DrawFrame d g s h).1.buffer = some b →
      ∀ (h1 : DrawHost) (c : jclass) (m r : jmethodID) (a : Nat),
        h1.FindClass = some c → h1.GetStaticMethodID = some m → h1.GetMethodID = some r →
        h1.GetDirectBufferAddress (some b) = some a →
        ∃ r1, (DG_DrawFrame d g (DG_DrawFrame d g s h).1 h1).2.filter Event.isFrameStep =
          frameSteps d g (some b) a r1 := by
  obtain ⟨n1, n2⟩ := drawFrame_steps_none d g s h ha
  refine ⟨n1, n2, fun b hb => drawFrame_keeps_buffer d g s h b hb, ?_⟩
  intro b hb h1 c m r a hc hm hr ha1
  have hk := drawFrame_keeps_buffer d g (DG_DrawFrame d g s h).1 h1 b hb
  obtain ⟨r1, _, e⟩ :=
    drawFrame_steps_full d g (DG_DrawFrame d g s h).1 h1 c m r a hc hm hr (by rw [hk]; exact ha1)
  exact ⟨r1, by rw [e, hk]⟩

/-- Witness of `frame_dropped_without_address`: with buffer 5 stored, a call
that gets no address issues only the address query and keeps the statics. -/
theorem frame_dropped_without_address_witness :
    DG_DrawFrame ⟨640, 400, 4⟩
        ⟨some 1, some 2, some 20, some 21, some 22, some 23, some 24, some 25⟩
        ⟨some 7, some 8, some 5, some 9⟩
        ⟨none, none, fun _ => none, fun _ => none, fun _ => none, none⟩ =
      (⟨some 7, some 8, some 5, some 9⟩, [Event.GetDirectBufferAddress (some 5)]) ∧
    (DG_DrawFrame ⟨640, 400, 4⟩
        ⟨some 1, some 2, some 20, some 21, some 22, some 23, some 24, some 25⟩
        ⟨some 7, some 8, some 5, some 9⟩
        ⟨none, none, fun _ => none, fun _ => none, fun _ => none,
          none⟩).2.filter Event.isFrameStep = [] :=
  ⟨by decide,
   (frame_dropped_without_address ⟨640, 400, 4⟩
    ⟨some 1, some 2, some 20, some 21, some 22, some 23, some 24, some 25⟩
    ⟨some 7, some 8, some 5, some 9⟩
    ⟨none, none, fun _ => none, fun _ => none, fun _ => none, none⟩ rfl).1⟩

end KDoomGeneric
